import Mathlib

/-!
Verification of the nano-agent message-forwarding pipeline (Go source,
`main.go`): a shallow embedding of the data model, the JSON encoding used
on the wire, the connection handler's dispatch, the batch controller, and
the egress worker's select loop, together with theorems checking the
specification's claims against those definitions.

Modelling conventions:
* Go `float64` values are modelled as `ℚ` (exact rational arithmetic);
  `time.Duration` is its underlying `int64` nanosecond count, modelled as
  `ℤ`; Go `int` is `ℤ`.
* Go's float-to-integer conversion truncates toward zero (`goTrunc`).
* JSON is modelled as a tree (`Json`); Go's `json.Marshal` output bytes
  are obtained from the tree by `Json.render`, which mirrors
  `encoding/json`'s compact output, struct-order fields and HTML escaping.
* Side effects (socket writes, enqueue, HTTP calls) are reified as data:
  the handler returns a `Dispatch` value, the egress worker's HTTP POSTs
  are accumulated in a `flushed` list.
-/

/-- JSON value trees. Numbers are restricted to integers: every number the
agent ever produces or consumes in the modelled paths is integral. -/
inductive Json where
  | null : Json
  | bool : Bool → Json
  | num : Int → Json
  | str : String → Json
  | arr : List Json → Json
  | obj : List (String × Json) → Json

/-- Hex digit characters used by the JSON escaper (lowercase, as Go). -/
def hexDigit (n : Nat) : Char :=
  if n < 10 then Char.ofNat (48 + n) else Char.ofNat (87 + n)

/-- Escape one character the way Go's `encoding/json` does in its default
(HTML-escaping) mode. -/
def jsonEscapeChar (c : Char) : String :=
  if c = '"' then "\\\""
  else if c = '\\' then "\\\\"
  else if c = '\n' then "\\n"
  else if c = '\r' then "\\r"
  else if c = '\t' then "\\t"
  else if c = '<' then "\\u003c"
  else if c = '>' then "\\u003e"
  else if c = '&' then "\\u0026"
  else if c.toNat < 32 then
    "\\u00" ++ String.mk [hexDigit (c.toNat / 16), hexDigit (c.toNat % 16)]
  else String.singleton c

/-- Escape a string the way Go's `encoding/json` does. -/
def jsonEscape (s : String) : String :=
  String.join (s.data.map jsonEscapeChar)

mutual

/-- Render a JSON tree to the compact byte string `json.Marshal` emits. -/
def Json.render : Json → String
  | .null => "null"
  | .bool true => "true"
  | .bool false => "false"
  | .num n => toString n
  | .str s => "\"" ++ jsonEscape s ++ "\""
  | .arr xs => "[" ++ Json.renderList xs ++ "]"
  | .obj fs => "\x7b" ++ Json.renderFields fs ++ "\x7d"

/-- Comma-separated rendering of array elements. -/
def Json.renderList : List Json → String
  | [] => ""
  | [x] => Json.render x
  | x :: xs => Json.render x ++ "," ++ Json.renderList xs

/-- Comma-separated rendering of object fields. -/
def Json.renderFields : List (String × Json) → String
  | [] => ""
  | [(k, v)] => "\"" ++ jsonEscape k ++ "\":" ++ Json.render v
  | (k, v) :: fs => "\"" ++ jsonEscape k ++ "\":" ++ Json.render v ++ "," ++ Json.renderFields fs

end

/-- First-match field lookup in a JSON object's field list. -/
def lookupField : List (String × Json) → String → Option Json
  | [], _ => none
  | (k, v) :: rest, key => if k = key then some v else lookupField rest key

/-- Runtime content of the Go `interface{}`-typed `Limit` field of
`MessageContext`: absent (`nil`), a Go `int`, or a value of any other
dynamic type (on which the handler's `.(int)` type assertion fails). -/
inductive LimitVal where
  | int : Int → LimitVal
  | invalid : LimitVal
deriving DecidableEq, Repr

/-- Go struct `MessageContext` (`main.go` lines 41-46).  `Limit` carries
the JSON tag `"-"`, so it is never marshalled nor unmarshalled. -/
structure MessageContext where
  tags : List String
  limit : Option LimitVal
  waitResponse : Bool
  entity : String
deriving DecidableEq, Repr

instance : Inhabited MessageContext := ⟨⟨[], none, false, ""⟩⟩

/-- Go struct `Message` (`main.go` lines 48-54). -/
structure Message where
  data : String
  context : MessageContext
  msgType : String
  destination : String
  timestamp : String
deriving DecidableEq, Repr

instance : Inhabited Message := ⟨⟨"", default, "", "", ""⟩⟩

/-- `json.Marshal` of a `MessageContext`: `tags,omitempty` (omitted when
the slice is empty), `Limit` never emitted (tag `"-"`), `wait,omitempty`
(omitted when `false`), `entity,omitempty` (omitted when `""`). -/
def encodeContext (c : MessageContext) : Json :=
  .obj ((if c.tags = [] then [] else [("tags", .arr (c.tags.map .str))])
    ++ (if c.waitResponse then [("wait", .bool true)] else [])
    ++ (if c.entity = "" then [] else [("entity", .str c.entity)]))

/-- `json.Marshal` of a `Message`.  All string fields are `omitempty`;
`context` is declared `omitempty` but Go never treats a struct value as
empty, so the `context` member is always present. -/
def encodeMessage (m : Message) : Json :=
  .obj ((if m.data = "" then [] else [("data", .str m.data)])
    ++ [("context", encodeContext m.context)]
    ++ (if m.msgType = "" then [] else [("msg_type", .str m.msgType)])
    ++ (if m.destination = "" then [] else [("dest", .str m.destination)])
    ++ (if m.timestamp = "" then [] else [("timestamp", .str m.timestamp)]))

/-- Unmarshal a string-typed struct field: absent or `null` leaves the
zero value `""`; any non-string JSON value is a decode error. -/
def getString : Option Json → Option String
  | none => some ""
  | some .null => some ""
  | some (.str s) => some s
  | some _ => none

/-- Unmarshal a bool-typed struct field. -/
def getBool : Option Json → Option Bool
  | none => some false
  | some .null => some false
  | some (.bool b) => some b
  | some _ => none

/-- Unmarshal a `[]string`-typed struct field. -/
def getStringList : Option Json → Option (List String)
  | none => some []
  | some .null => some []
  | some (.arr xs) =>
    xs.foldr (fun j acc =>
      match j, acc with
      | .str s, some rest => some (s :: rest)
      | _, _ => none) (some [])
  | some _ => none

/-- Unmarshal a `MessageContext`.  The `limit` key of the incoming JSON is
never read: the field's tag is `"-"`, so `limit` is always `none` after
decoding.  Unknown keys are ignored, as in `encoding/json`. -/
def decodeContext : Option Json → Option MessageContext
  | none => some default
  | some .null => some default
  | some (.obj fs) =>
    match getStringList (lookupField fs "tags"), getBool (lookupField fs "wait"),
        getString (lookupField fs "entity") with
    | some tags, some w, some e => some ⟨tags, none, w, e⟩
    | _, _, _ => none
  | some _ => none

/-- Unmarshal a `Message` from a JSON value (the per-object step of the
handler's `decoder.Decode`); `none` models a decode error, after which the
handler skips the message.  A top-level `null` succeeds and leaves the
zero-valued `Message`, as Go's `Decode` does. -/
def decodeMessage : Json → Option Message
  | .null => some default
  | .obj fs =>
    match getString (lookupField fs "data"), decodeContext (lookupField fs "context"),
        getString (lookupField fs "msg_type"), getString (lookupField fs "dest"),
        getString (lookupField fs "timestamp") with
    | some d, some c, some mt, some ds, some ts => some ⟨d, c, mt, ds, ts⟩
    | _, _, _, _, _ => none
  | _ => none

/-- `json.Marshal` of the Go `ResponseMessage` envelope
(`status` then `message,omitempty`). -/
def encodeResponseMessage (status msg : String) : Json :=
  .obj ([("status", .str status)] ++ (if msg = "" then [] else [("message", .str msg)]))

/-- Bytes written by `sendErrorResponse` (`main.go` lines 308-315). -/
def errorEnvelope (msg : String) : String :=
  (encodeResponseMessage "error" msg).render

/-- Reified effect of the handler on one decoded message: the enqueue
`messageQueue <- msg`, the synchronous-publish path (`sendSingleMessage`
followed by writing its result), the poll path with the resolved limit
(`checkMessage(client, limit)` followed by writing its result), or a plain
byte write on the connection (error envelopes). -/
inductive Dispatch where
  | enqueue : Message → Dispatch
  | syncPublish : Message → Dispatch
  | pollRequest : Int → Dispatch
  | reply : String → Dispatch
deriving DecidableEq, Repr

/-- Whether a dispatch puts the message on the egress queue. -/
def Dispatch.isEnqueue : Dispatch → Bool
  | .enqueue _ => true
  | _ => false

/-- `ValidateClientContext` (`main.go` lines 110-115): at most 10 tags;
returns the error message, `none` meaning no error. -/
def ValidateClientContext (ctx : MessageContext) : Option String :=
  if ctx.tags.length > 10 then some "too many tags provided; maximum is 10" else none

/-- `ProcessMessage` (`main.go` lines 142-185): dispatch on `msg_type`.
`msg_check` resolves the limit from the `interface{}`-typed
`msg.Context.Limit` — default `1` when `nil`, the value when the `.(int)`
assertion succeeds, the `Invalid limit type` envelope otherwise;
`publish` either publishes synchronously (`wait`) or enqueues; every
other `msg_type` gets the `Unknown message type` envelope. -/
def ProcessMessage (msg : Message) : Dispatch :=
  match msg.msgType with
  | "msg_check" =>
    match msg.context.limit with
    | none => .pollRequest 1
    | some (.int n) => .pollRequest n
    | some .invalid => .reply (errorEnvelope "Invalid limit type")
  | "publish" =>
    if msg.context.waitResponse then .syncPublish msg else .enqueue msg
  | _ => .reply (errorEnvelope "Unknown message type")

/-- Body of `HandleConnection`'s loop for one successfully decoded
message (`main.go` lines 131-138): validate the context, answering an
error envelope on failure, otherwise dispatch. -/
def handleDecodedMessage (msg : Message) : Dispatch :=
  match ValidateClientContext msg.context with
  | some e => .reply (errorEnvelope e)
  | none => ProcessMessage msg

/-- One outcome of `decoder.Decode` in `HandleConnection`: a JSON decode
error that is not end-of-stream, or a decoded message.  End-of-stream is
the end of the list. -/
inductive WireItem where
  | malformed : WireItem
  | msg : Message → WireItem
deriving DecidableEq, Repr

/-- `HandleConnection` (`main.go` lines 117-140) over the stream of
decoder outcomes: decode errors are logged and skipped, decoded messages
are validated and dispatched, end-of-stream stops the loop. -/
def HandleConnection : List WireItem → List Dispatch
  | [] => []
  | .malformed :: rest => HandleConnection rest
  | .msg m :: rest => handleDecodedMessage m :: HandleConnection rest

/-- An upstream HTTP response: status code and decoded JSON body. -/
structure HttpResponse where
  statusCode : Nat
  body : Json

/-- Unmarshal of `checkMessage`'s anonymous response struct
`{ Messages []Message "json:messages" }` from the response body. -/
def decodeMessageList : List Json → Option (List Message)
  | [] => some []
  | j :: js =>
    match decodeMessage j, decodeMessageList js with
    | some m, some ms => some (m :: ms)
    | _, _ => none

/-- Body decode for `checkMessage`: a missing or `null` `messages` key
leaves the nil slice; a non-object body or ill-typed `messages` is a
decode error. -/
def decodePollBody : Json → Option (List Message)
  | .null => some []
  | .obj fs =>
    match lookupField fs "messages" with
    | none => some []
    | some .null => some []
    | some (.arr js) => decodeMessageList js
    | some _ => none
  | _ => none

/-- `checkMessage` (`main.go` lines 393-427) as a function of the
upstream response: 204 yields the empty list, a non-200 other status
fails with `unexpected status code: <n>`, 200 decodes the body.  (The
exact text of a body-decode JSON error is abstracted as
`invalid response body`; no claim depends on it.) -/
def checkMessage (resp : HttpResponse) : Except String (List Message) :=
  if resp.statusCode = 204 then .ok []
  else if resp.statusCode ≠ 200 then
    .error ("unexpected status code: " ++ toString resp.statusCode)
  else
    match decodePollBody resp.body with
    | some msgs => .ok msgs
    | none => .error "invalid response body"

/-- Bytes the handler writes on the connection for a `msg_check`, given
the upstream response (`main.go` lines 159-170): an error envelope if
`checkMessage` failed, the three ASCII bytes `204` if it returned no
messages, otherwise the `json.Marshal` of the returned messages. -/
def msgCheckWireOutput (resp : HttpResponse) : String :=
  match checkMessage resp with
  | .error e => errorEnvelope e
  | .ok msgs =>
    if msgs = [] then "204"
    else (Json.arr (msgs.map encodeMessage)).render

/-- Go's float-to-integer conversion: truncation toward zero. -/
def goTrunc (q : ℚ) : Int := if 0 ≤ q then ⌊q⌋ else ⌈q⌉

/-- Go struct `Config` (`main.go` lines 24-39).  Durations are their
`int64` nanosecond counts; floats are rationals. -/
structure Config where
  appURL : String
  linuxPath : String
  socketPath : String
  flushInterval : Int
  batchSize : Int
  apiKey : String
  minBatchSize : Int
  maxBatchSize : Int
  scaleFactor : ℚ
  maxQueueSize : Int
  targetCPUPercent : ℚ
  targetMemPercent : ℚ
  minBatchInterval : Int
  maxBatchInterval : Int
deriving DecidableEq, Repr

/-- Go struct `SystemMetrics` (`main.go` lines 61-65). -/
structure SystemMetrics where
  cpuUsage : ℚ
  memoryUsage : ℚ
  queueLoad : ℚ
deriving DecidableEq, Repr

/-- `calculateDynamicBatchSize` (`main.go` lines 208-229): weighted
resource factor, float-to-int conversion, then clamping to
`[MinBatchSize, MaxBatchSize]`. -/
def calculateDynamicBatchSize (cfg : Config) (metrics : SystemMetrics) : Int :=
  let cpuFactor := max 0 (1 - metrics.cpuUsage / cfg.targetCPUPercent)
  let memFactor := max 0 (1 - metrics.memoryUsage / cfg.targetMemPercent)
  let queueFactor := min 1 (metrics.queueLoad / 50)
  let resourceFactor := cpuFactor * (4 / 10) + memFactor * (4 / 10) + queueFactor * (2 / 10)
  let newBatchSize := goTrunc ((cfg.maxBatchSize : ℚ) * resourceFactor)
  if newBatchSize < cfg.minBatchSize then cfg.minBatchSize
  else if newBatchSize > cfg.maxBatchSize then cfg.maxBatchSize
  else newBatchSize

/-- The ticker interval computed on each ingress event
(`main.go` lines 247-251): `MaxBatchInterval · (1 − queueLoad/100)`
converted to a `time.Duration`, raised to `MinBatchInterval` if below. -/
def adjustedInterval (cfg : Config) (queueLoad : ℚ) : Int :=
  let interval := goTrunc ((cfg.maxBatchInterval : ℚ) * (1 - queueLoad / 100))
  if interval < cfg.minBatchInterval then cfg.minBatchInterval else interval

/-- An event the egress worker's `select` can wake on: a message received
from the queue (with the metrics `getSystemMetrics` samples at that
moment), a ticker tick, or the shutdown signal carrying the messages
still buffered in the queue channel at that point. -/
inductive WorkerEvent where
  | deliver : Message → SystemMetrics → WorkerEvent
  | tick : WorkerEvent
  | shutdown : List Message → WorkerEvent
deriving DecidableEq, Repr

/-- State of `ProcessQueue`: the batch buffer, the list of batches handed
to `FlushBatch` so far (in order), the current ticker interval, and the
flags set by the shutdown branch. -/
structure WorkerState where
  batch : List Message
  flushed : List (List Message)
  tickerInterval : Int
  queueClosed : Bool
  tickerStopped : Bool
deriving DecidableEq, Repr

/-- Initial state of `ProcessQueue` (`main.go` lines 232-233): empty
buffer, ticker started at `MinBatchInterval`. -/
def initWorkerState (cfg : Config) : WorkerState :=
  ⟨[], [], cfg.minBatchInterval, false, false⟩

/-- One iteration of `ProcessQueue`'s `select` (`main.go` lines 235-276).
Returns the new state and whether the worker returned (shutdown).
* message received: append to the batch, recompute the dynamic batch size
  and the ticker interval, flush when the batch has reached the size;
* tick: flush a non-empty batch;
* shutdown: close the queue, drain the remaining messages into the batch,
  flush once if non-empty, stop the ticker and return. -/
def processQueueStep (cfg : Config) (s : WorkerState) : WorkerEvent → WorkerState × Bool
  | .deliver m metrics =>
    let batch := s.batch ++ [m]
    let dynamicBatchSize := calculateDynamicBatchSize cfg metrics
    let interval := adjustedInterval cfg metrics.queueLoad
    if (batch.length : Int) ≥ dynamicBatchSize then
      ({ s with batch := [], flushed := s.flushed ++ [batch], tickerInterval := interval }, false)
    else
      ({ s with batch := batch, tickerInterval := interval }, false)
  | .tick =>
    if s.batch ≠ [] then
      ({ s with batch := [], flushed := s.flushed ++ [s.batch] }, false)
    else (s, false)
  | .shutdown remaining =>
    let batch := s.batch ++ remaining
    if batch ≠ [] then
      ({ s with
          batch := batch
          flushed := s.flushed ++ [batch]
          queueClosed := true
          tickerStopped := true }, true)
    else
      ({ s with batch := batch, queueClosed := true, tickerStopped := true }, true)

/-- `ProcessQueue`'s loop over a sequence of wake-ups, stopping when an
iteration returns. -/
def ProcessQueue (cfg : Config) (s : WorkerState) : List WorkerEvent → WorkerState
  | [] => s
  | e :: es =>
    let (s', stop) := processQueueStep cfg s e
    if stop then s' else ProcessQueue cfg s' es

/-- The messages handed to the worker by a list of events: queue
deliveries in order, plus the residue drained at shutdown. -/
def deliveredMessages : List WorkerEvent → List Message
  | [] => []
  | .deliver m _ :: es => m :: deliveredMessages es
  | .tick :: es => deliveredMessages es
  | .shutdown rest :: es => rest ++ deliveredMessages es

/-- The configuration produced by `InitializeConfig`'s flag defaults
(`main.go` lines 74-108) on a POSIX host. -/
def defaultConfig : Config where
  appURL := "https://app.tendrl.com/api"
  linuxPath := "/var/lib/tendrl"
  socketPath := "/var/lib/tendrl/tendrl_agent.sock"
  flushInterval := 250000000
  batchSize := 10
  apiKey := "key"
  minBatchSize := 10
  maxBatchSize := 200
  scaleFactor := 1 / 2
  maxQueueSize := 1000
  targetCPUPercent := 70
  targetMemPercent := 80
  minBatchInterval := 100000000
  maxBatchInterval := 1000000000

/-- Claim C5: for every `SystemMetrics` input and every configuration
with `min_batch_size ≤ max_batch_size`, the batch size computed by
`calculateDynamicBatchSize` lies in `[min_batch_size, max_batch_size]`. -/
theorem c5_batch_size_bounds (cfg : Config) (metrics : SystemMetrics)
    (h : cfg.minBatchSize ≤ cfg.maxBatchSize) :
    cfg.minBatchSize ≤ calculateDynamicBatchSize cfg metrics ∧
      calculateDynamicBatchSize cfg metrics ≤ cfg.maxBatchSize := by
  unfold calculateDynamicBatchSize
  dsimp only
  split_ifs with h1 h2 <;> omega

/-- Witness for C5: the default configuration under heavy load. -/
theorem c5_batch_size_bounds_witness :
    defaultConfig.minBatchSize ≤ calculateDynamicBatchSize defaultConfig ⟨120, 95, 80⟩ ∧
      calculateDynamicBatchSize defaultConfig ⟨120, 95, 80⟩ ≤ defaultConfig.maxBatchSize :=
  c5_batch_size_bounds defaultConfig ⟨120, 95, 80⟩ (by decide)

/-- Claim C9: with all three metrics at zero (so the cpu and memory
factors are 1 and the queue factor 0), the batch controller returns
`floor(max_batch_size · 0.8)` whenever that value lies within
`[min_batch_size, max_batch_size]` (targets positive, as the claim's
factor computation presumes). -/
theorem c9_zero_metrics_batch_size (cfg : Config)
    (hcpu : 0 < cfg.targetCPUPercent) (hmem : 0 < cfg.targetMemPercent)
    (hlo : cfg.minBatchSize ≤ ⌊(cfg.maxBatchSize : ℚ) * (8 / 10)⌋)
    (hhi : ⌊(cfg.maxBatchSize : ℚ) * (8 / 10)⌋ ≤ cfg.maxBatchSize) :
    calculateDynamicBatchSize cfg ⟨0, 0, 0⟩ = ⌊(cfg.maxBatchSize : ℚ) * (8 / 10)⌋ := by
  have hrf : max 0 (1 - (0 : ℚ) / cfg.targetCPUPercent) * (4 / 10)
      + max 0 (1 - (0 : ℚ) / cfg.targetMemPercent) * (4 / 10)
      + min 1 ((0 : ℚ) / 50) * (2 / 10) = 8 / 10 := by
    rw [zero_div, zero_div, zero_div]
    norm_num
  unfold calculateDynamicBatchSize
  dsimp only
  rw [hrf]
  rcases le_or_lt 0 cfg.maxBatchSize with hpos | hneg
  · have hx : (0 : ℚ) ≤ (cfg.maxBatchSize : ℚ) * (8 / 10) := by
      apply mul_nonneg _ (by norm_num)
      exact_mod_cast hpos
    rw [goTrunc, if_pos hx]
    rw [if_neg (by omega), if_neg (by omega)]
  · have hxneg : (cfg.maxBatchSize : ℚ) * (8 / 10) < 0 := by
      apply mul_neg_of_neg_of_pos _ (by norm_num)
      exact_mod_cast hneg
    have hle : (cfg.maxBatchSize : ℚ) ≤ (cfg.maxBatchSize : ℚ) * (8 / 10) := by
      nlinarith [show (cfg.maxBatchSize : ℚ) < 0 from by exact_mod_cast hneg]
    have hfl : cfg.maxBatchSize ≤ ⌊(cfg.maxBatchSize : ℚ) * (8 / 10)⌋ := by
      have := Int.floor_le_floor hle
      rwa [Int.floor_intCast] at this
    have hfleq : ⌊(cfg.maxBatchSize : ℚ) * (8 / 10)⌋ = cfg.maxBatchSize := le_antisymm hhi hfl
    have hfc : ⌊(cfg.maxBatchSize : ℚ) * (8 / 10)⌋ ≤ ⌈(cfg.maxBatchSize : ℚ) * (8 / 10)⌉ :=
      Int.floor_le_ceil _
    rw [goTrunc, if_neg (not_le.mpr hxneg)]
    rcases le_or_lt (⌈(cfg.maxBatchSize : ℚ) * (8 / 10)⌉) cfg.maxBatchSize with hc | hc
    · rw [if_neg (by omega), if_neg (by omega)]
      omega
    · rw [if_neg (by omega), if_pos (by omega)]
      omega

/-- Witness for C9: the default configuration, where
`floor(200 · 0.8) = 160` lies in `[10, 200]` and is the output. -/
theorem c9_zero_metrics_batch_size_witness :
    calculateDynamicBatchSize defaultConfig ⟨0, 0, 0⟩ = ⌊(defaultConfig.maxBatchSize : ℚ) * (8 / 10)⌋ :=
  c9_zero_metrics_batch_size defaultConfig (by decide) (by decide)
    (by norm_num [defaultConfig]) (by norm_num [defaultConfig])

/-- A configuration with equal but negative batch intervals (negative
durations are representable: Go `time.Duration` is a signed `int64` and
the `-minInterval` / `-maxInterval` flags accept them). -/
def negIntervalConfig : Config :=
  { defaultConfig with minBatchInterval := -100, maxBatchInterval := -100 }

/-- Counterexample to claim C6 as stated: with
`min_batch_interval = max_batch_interval = -100` (so the claimed
hypothesis `min ≤ max` holds) and `queue_load = 100`, the computed
interval is `0`, which is not ≤ `max_batch_interval`. -/
theorem c6_counterexample :
    negIntervalConfig.minBatchInterval ≤ negIntervalConfig.maxBatchInterval ∧
      (0 : ℚ) ≤ 100 ∧ (100 : ℚ) ≤ 100 ∧
      adjustedInterval negIntervalConfig 100 = 0 ∧
      ¬ adjustedInterval negIntervalConfig 100 ≤ negIntervalConfig.maxBatchInterval := by
  have hval : adjustedInterval negIntervalConfig 100 = 0 := by
    unfold adjustedInterval goTrunc
    norm_num [negIntervalConfig, defaultConfig]
  refine ⟨by decide, by norm_num, by norm_num, hval, ?_⟩
  rw [hval]
  decide

/-- Claim C6 (amended): additionally assuming `0 ≤ min_batch_interval`,
for every `queue_load ∈ [0, 100]` and configuration with
`min_batch_interval ≤ max_batch_interval`, the interval computed on each
ingress event lies in `[min_batch_interval, max_batch_interval]`. -/
theorem c6_interval_bounds (cfg : Config) (queueLoad : ℚ)
    (hmin : 0 ≤ cfg.minBatchInterval) (h : cfg.minBatchInterval ≤ cfg.maxBatchInterval)
    (h0 : 0 ≤ queueLoad) (h100 : queueLoad ≤ 100) :
    cfg.minBatchInterval ≤ adjustedInterval cfg queueLoad ∧
      adjustedInterval cfg queueLoad ≤ cfg.maxBatchInterval := by
  have hmax : (0 : ℚ) ≤ (cfg.maxBatchInterval : ℚ) := by exact_mod_cast le_trans hmin h
  have hfac0 : (0 : ℚ) ≤ 1 - queueLoad / 100 := by
    have : queueLoad / 100 ≤ 1 := by
      rw [div_le_one (by norm_num : (0 : ℚ) < 100)]
      exact h100
    linarith
  have hfac1 : 1 - queueLoad / 100 ≤ 1 := by
    have : (0 : ℚ) ≤ queueLoad / 100 := div_nonneg h0 (by norm_num)
    linarith
  have hx0 : (0 : ℚ) ≤ (cfg.maxBatchInterval : ℚ) * (1 - queueLoad / 100) :=
    mul_nonneg hmax hfac0
  have hxle : (cfg.maxBatchInterval : ℚ) * (1 - queueLoad / 100) ≤ (cfg.maxBatchInterval : ℚ) :=
    mul_le_of_le_one_right hmax hfac1
  have hfloor : ⌊(cfg.maxBatchInterval : ℚ) * (1 - queueLoad / 100)⌋ ≤ cfg.maxBatchInterval := by
    have := Int.floor_le_floor hxle
    rwa [Int.floor_intCast] at this
  unfold adjustedInterval
  dsimp only
  rw [goTrunc, if_pos hx0]
  split_ifs with hlt
  · exact ⟨le_refl _, h⟩
  · exact ⟨by omega, hfloor⟩

/-- Witness for C6 (amended): the default configuration at half load. -/
theorem c6_interval_bounds_witness :
    defaultConfig.minBatchInterval ≤ adjustedInterval defaultConfig 50 ∧
      adjustedInterval defaultConfig 50 ≤ defaultConfig.maxBatchInterval :=
  c6_interval_bounds defaultConfig 50 (by decide) (by decide) (by norm_num) (by norm_num)

/-- A `dest_publish` message with valid tags, `wait` unset and a
destination, as in claim C1. -/
def destPublishMsg : Message :=
  ⟨"payload", ⟨["t"], none, false, ""⟩, "dest_publish", "entityB", ""⟩

/-- Counterexample to claim C1 as stated: the handler does not enqueue a
`dest_publish` message — `ProcessMessage`'s switch has cases only for
`msg_check` and `publish`, so `dest_publish` falls to the default branch
and is answered with the `Unknown message type` error envelope. -/
theorem c1_counterexample :
    handleDecodedMessage destPublishMsg = .reply (errorEnvelope "Unknown message type") ∧
      (handleDecodedMessage destPublishMsg).isEnqueue = false ∧
      handleDecodedMessage destPublishMsg ≠ .enqueue destPublishMsg := by
  refine ⟨rfl, rfl, ?_⟩
  decide

/-- Claim C1 (amended): every decoded message whose `msg_type` is
`dest_publish` (valid tags, `context.wait` irrelevant) is answered with
the `Unknown message type` error envelope and is not enqueued. -/
theorem c1_dest_publish_rejected (m : Message) (htags : m.context.tags.length ≤ 10)
    (hty : m.msgType = "dest_publish") :
    handleDecodedMessage m = .reply (errorEnvelope "Unknown message type") ∧
      (handleDecodedMessage m).isEnqueue = false := by
  have hv : ValidateClientContext m.context = none := by
    unfold ValidateClientContext
    rw [if_neg (by omega)]
  have hd : handleDecodedMessage m = ProcessMessage m := by
    unfold handleDecodedMessage
    rw [hv]
  have hp : ProcessMessage m = .reply (errorEnvelope "Unknown message type") := by
    unfold ProcessMessage
    rw [hty]
    rfl
  rw [hd, hp]
  exact ⟨rfl, rfl⟩


/-- Witness for C1 (amended): the concrete `dest_publish` message. -/
theorem c1_dest_publish_rejected_witness :
    handleDecodedMessage destPublishMsg = .reply (errorEnvelope "Unknown message type") ∧
      (handleDecodedMessage destPublishMsg).isEnqueue = false :=
  c1_dest_publish_rejected destPublishMsg (by decide) (by decide)

/-- The wire object `\x7b"msg_type":"msg_check","context":\x7b"limit":5\x7d\x7d`:
a client asking for up to 5 pending messages, as the repository's own
protocol documentation describes. -/
def msgCheckLimit5Input : Json :=
  .obj [("msg_type", .str "msg_check"), ("context", .obj [("limit", .num 5)])]

/-- Claim C2, evaluated at the failing input: because the `Limit` field
carries the JSON tag `"-"`, decoding drops the client's `context.limit`
entirely (and even without the tag, a JSON number unmarshals into
`interface\x7b\x7d` as `float64`, which the `.(int)` assertion rejects), so the
handler polls with limit 1 instead of the requested 5. -/
theorem c2_limit_ignored_at_failing_input :
    decodeMessage msgCheckLimit5Input = some ⟨"", ⟨[], none, false, ""⟩, "msg_check", "", ""⟩ ∧
      (decodeMessage msgCheckLimit5Input).map (fun m => m.context.limit) = some none ∧
      (decodeMessage msgCheckLimit5Input).map ProcessMessage = some (.pollRequest 1) ∧
      (decodeMessage msgCheckLimit5Input).map ProcessMessage ≠ some (.pollRequest 5) := by
  refine ⟨rfl, rfl, rfl, ?_⟩
  decide

/-- A publish with eleven tags, as in the spec's concrete scenario 5. -/
def elevenTagMsg : Message :=
  ⟨"d", ⟨["t1", "t2", "t3", "t4", "t5", "t6", "t7", "t8", "t9", "t10", "t11"], none, false, ""⟩,
    "publish", "", ""⟩

/-- Claim C8: an incoming object whose `context.tags` has length ≥ 11 is
answered with exactly the envelope bytes
`\x7b"status":"error","message":"too many tags provided; maximum is 10"\x7d`,
is not enqueued, and the decode loop continues with the rest of the
stream. -/
theorem c8_too_many_tags (m : Message) (rest : List WireItem)
    (h : 11 ≤ m.context.tags.length) :
    handleDecodedMessage m =
        .reply "\x7b\"status\":\"error\",\"message\":\"too many tags provided; maximum is 10\"\x7d" ∧
      (handleDecodedMessage m).isEnqueue = false ∧
      HandleConnection (.msg m :: rest) = handleDecodedMessage m :: HandleConnection rest := by
  have hv : ValidateClientContext m.context = some "too many tags provided; maximum is 10" := by
    unfold ValidateClientContext
    rw [if_pos (by omega)]
  have hd : handleDecodedMessage m =
      .reply (errorEnvelope "too many tags provided; maximum is 10") := by
    unfold handleDecodedMessage
    rw [hv]
  refine ⟨?_, ?_, rfl⟩
  · rw [hd]
    decide
  · rw [hd]
    rfl

/-- Witness for C8: the eleven-tag message followed by another item. -/
theorem c8_too_many_tags_witness :
    handleDecodedMessage elevenTagMsg =
        .reply "\x7b\"status\":\"error\",\"message\":\"too many tags provided; maximum is 10\"\x7d" ∧
      (handleDecodedMessage elevenTagMsg).isEnqueue = false ∧
      HandleConnection (.msg elevenTagMsg :: [.msg destPublishMsg]) =
        handleDecodedMessage elevenTagMsg :: HandleConnection [.msg destPublishMsg] :=
  c8_too_many_tags elevenTagMsg [.msg destPublishMsg] (by decide)

/-- An upstream OK response whose `messages` array is empty. -/
def okEmptyResponse : HttpResponse := ⟨200, .obj [("messages", .arr [])]⟩

/-- Counterexample to claim C7 as stated: for an OK (200) response with
body `\x7b"messages":[]\x7d`, `checkMessage` does return the (empty) inner
sequence, but the handler then writes the three bytes `204`, not the
JSON encoding `[]` of that sequence. -/
theorem c7_counterexample :
    checkMessage okEmptyResponse = .ok [] ∧
      msgCheckWireOutput okEmptyResponse = "204" ∧
      msgCheckWireOutput okEmptyResponse ≠ (Json.arr (([] : List Message).map encodeMessage)).render := by
  refine ⟨rfl, rfl, ?_⟩
  decide

/-- A non-empty poll result used by the C7 witness. -/
def pollMsg : Message := ⟨"x", ⟨[], none, false, ""⟩, "publish", "", ""⟩

/-- Claim C7 (amended): `checkMessage` maps a 204 response to the empty
list, after which the handler writes exactly the three ASCII bytes
`204`; it maps a 200 response with body `\x7b"messages":[...]\x7d` to the inner
sequence, which the handler writes back JSON-encoded when it is
non-empty (an empty sequence is written as `204`); and every other
status code fails with `unexpected status code: <n>`, surfaced to the
client as an error envelope. -/
theorem c7_poll_status_mapping (body : Json) (n : ℕ) (js : List Json) (msgs : List Message)
    (hdec : decodeMessageList js = some msgs) (hne : msgs ≠ [])
    (hn204 : n ≠ 204) (hn200 : n ≠ 200) :
    checkMessage ⟨204, body⟩ = .ok [] ∧
      msgCheckWireOutput ⟨204, body⟩ = "204" ∧
      checkMessage ⟨200, .obj [("messages", .arr js)]⟩ = .ok msgs ∧
      msgCheckWireOutput ⟨200, .obj [("messages", .arr js)]⟩ =
        (Json.arr (msgs.map encodeMessage)).render ∧
      checkMessage ⟨n, body⟩ = .error ("unexpected status code: " ++ toString n) ∧
      msgCheckWireOutput ⟨n, body⟩ = errorEnvelope ("unexpected status code: " ++ toString n) := by
  have h200 : checkMessage ⟨200, .obj [("messages", .arr js)]⟩ = .ok msgs := by
    unfold checkMessage decodePollBody
    rw [if_neg (by norm_num), if_neg (by norm_num)]
    simp [lookupField, hdec]
  have herr : checkMessage ⟨n, body⟩ = .error ("unexpected status code: " ++ toString n) := by
    unfold checkMessage
    rw [if_neg (by simpa using hn204), if_pos (by simpa using hn200)]
  refine ⟨rfl, rfl, h200, ?_, herr, ?_⟩
  · unfold msgCheckWireOutput
    rw [h200]
    simp only [if_neg hne]
  · unfold msgCheckWireOutput
    rw [herr]

/-- Witness for C7 (amended): a body decoding to one message, and the
unexpected status 500. -/
theorem c7_poll_status_mapping_witness :
    checkMessage ⟨204, .null⟩ = .ok [] ∧
      msgCheckWireOutput ⟨204, .null⟩ = "204" ∧
      checkMessage ⟨200, .obj [("messages", .arr [encodeMessage pollMsg])]⟩ = .ok [pollMsg] ∧
      msgCheckWireOutput ⟨200, .obj [("messages", .arr [encodeMessage pollMsg])]⟩ =
        (Json.arr ([pollMsg].map encodeMessage)).render ∧
      checkMessage ⟨500, .null⟩ = .error ("unexpected status code: " ++ toString 500) ∧
      msgCheckWireOutput ⟨500, .null⟩ = errorEnvelope ("unexpected status code: " ++ toString 500) :=
  c7_poll_status_mapping .null 500 [encodeMessage pollMsg] [pollMsg]
    (by decide) (by decide) (by decide) (by decide)

/-- Unmarshalling the encoding of a `[]string` returns the same list. -/
theorem getStringList_encode (xs : List String) :
    List.foldr (fun j acc =>
      match j, acc with
      | Json.str s, some rest => some (s :: rest)
      | _, _ => none) (some []) (xs.map Json.str) = some xs := by
  induction xs with
  | nil => rfl
  | cons x xs ih => simp only [List.map_cons, List.foldr_cons, ih]

/-- Round trip of `MessageContext` through `json.Marshal`: every field
survives except `limit`, which the `"-"` tag drops. -/
theorem decodeContext_encodeContext (c : MessageContext) :
    decodeContext (some (encodeContext c)) = some ⟨c.tags, none, c.waitResponse, c.entity⟩ := by
  obtain ⟨tags, limit, w, e⟩ := c
  simp only [encodeContext, decodeContext]
  by_cases ht : tags = [] <;> by_cases hw : w = true <;> by_cases he : e = "" <;>
    simp [ht, hw, he, lookupField, getStringList_encode, getString, getBool, getStringList]

/-- A `Message` whose context carries a limit value, for the C4
counterexample. -/
def limitMsg : Message := ⟨"x", ⟨[], some (.int 5), false, ""⟩, "publish", "", ""⟩

/-- Counterexample to claim C4 as stated: encoding and decoding
`limitMsg` loses `context.limit` (the field's JSON tag is `"-"`), so the
round trip is not the identity on all fields of the data model. -/
theorem c4_counterexample :
    decodeMessage (encodeMessage limitMsg) =
        some { limitMsg with context := { limitMsg.context with limit := none } } ∧
      decodeMessage (encodeMessage limitMsg) ≠ some limitMsg := by
  refine ⟨rfl, ?_⟩
  decide

/-- Claim C4 (amended): JSON-encoding a `Message` and decoding the result
restores every field of the data model except `context.limit`, which
always decodes to absent. -/
theorem c4_roundtrip_drops_limit (m : Message) :
    decodeMessage (encodeMessage m) =
      some { m with context := { m.context with limit := none } } := by
  obtain ⟨d, c, mt, ds, ts⟩ := m
  simp only [encodeMessage, decodeMessage]
  by_cases h1 : d = "" <;> by_cases h2 : mt = "" <;> by_cases h3 : ds = "" <;>
    by_cases h4 : ts = "" <;>
    simp [h1, h2, h3, h4, lookupField, getString, decodeContext_encodeContext]

/-- Whether a worker event is the shutdown signal. -/
def WorkerEvent.isShutdown : WorkerEvent → Bool
  | .shutdown _ => true
  | _ => false

/-- A non-shutdown iteration of the worker loop never returns, and
preserves the multiset (indeed the ordered list) of messages accounted
for: flushed batches plus the current buffer grow exactly by the
delivered message, and tick flushes move messages without loss. -/
theorem processQueueStep_conserves (cfg : Config) (s : WorkerState) (e : WorkerEvent)
    (h : e.isShutdown = false) :
    (processQueueStep cfg s e).2 = false ∧
      (processQueueStep cfg s e).1.flushed.join ++ (processQueueStep cfg s e).1.batch
        = s.flushed.join ++ s.batch ++ deliveredMessages [e] := by
  cases e with
  | deliver m metrics =>
    unfold processQueueStep
    dsimp only
    split_ifs <;> simp [deliveredMessages, List.join_append]
  | tick =>
    unfold processQueueStep
    dsimp only
    split_ifs <;> simp [deliveredMessages, List.join_append]
  | shutdown r => simp [WorkerEvent.isShutdown] at h

/-- Unfolding one iteration of the worker loop. -/
theorem processQueue_cons (cfg : Config) (s : WorkerState) (e : WorkerEvent)
    (es : List WorkerEvent) :
    ProcessQueue cfg s (e :: es)
      = if (processQueueStep cfg s e).2 then (processQueueStep cfg s e).1
        else ProcessQueue cfg (processQueueStep cfg s e).1 es := by
  rw [ProcessQueue]

/-- Running the worker on shutdown-free events accounts for every
delivered message exactly once, in order, across the flushed batches and
the remaining buffer. -/
theorem processQueue_conserves (cfg : Config) (es : List WorkerEvent)
    (h : ∀ e ∈ es, e.isShutdown = false) :
    ∀ s : WorkerState,
      (ProcessQueue cfg s es).flushed.join ++ (ProcessQueue cfg s es).batch
        = s.flushed.join ++ s.batch ++ deliveredMessages es := by
  induction es with
  | nil => intro s; simp [ProcessQueue, deliveredMessages]
  | cons e es ih =>
    intro s
    have he : e.isShutdown = false := h e (List.mem_cons_self e es)
    have hes : ∀ x ∈ es, x.isShutdown = false := fun x hx => h x (List.mem_cons_of_mem e hx)
    obtain ⟨hstop, hcons⟩ := processQueueStep_conserves cfg s e he
    unfold ProcessQueue
    rcases hstep : processQueueStep cfg s e with ⟨s', stop⟩
    rw [hstep] at hstop hcons
    dsimp only at hstop hcons ⊢
    rw [hstop]
    simp only [if_false, Bool.false_eq_true]
    rw [ih hes s', hcons]
    cases e with
    | deliver m metrics => simp [deliveredMessages]
    | tick => simp [deliveredMessages]
    | shutdown r => simp [WorkerEvent.isShutdown] at he

/-- Running the worker over concatenated event lists composes, provided
the first part contains no shutdown (so the loop does not return
early). -/
theorem processQueue_append (cfg : Config) (es es' : List WorkerEvent)
    (h : ∀ e ∈ es, e.isShutdown = false) :
    ∀ s : WorkerState,
      ProcessQueue cfg s (es ++ es') = ProcessQueue cfg (ProcessQueue cfg s es) es' := by
  induction es with
  | nil => intro s; rfl
  | cons e es ih =>
    intro s
    have he : e.isShutdown = false := h e (List.mem_cons_self e es)
    have hes : ∀ x ∈ es, x.isShutdown = false := fun x hx => h x (List.mem_cons_of_mem e hx)
    obtain ⟨hstop, -⟩ := processQueueStep_conserves cfg s e he
    rw [List.cons_append, processQueue_cons, processQueue_cons, hstop]
    simp only [Bool.false_eq_true, if_false]
    exact ih hes (processQueueStep cfg s e).1

/-- The shutdown branch of the worker loop: it returns, records the
queue as closed and the ticker as stopped, and its flushes account for
the prior flushes, the buffer, and the drained queue residue. -/
theorem processQueueStep_shutdown (cfg : Config) (s : WorkerState) (rest : List Message) :
    (processQueueStep cfg s (.shutdown rest)).2 = true ∧
      (processQueueStep cfg s (.shutdown rest)).1.queueClosed = true ∧
      (processQueueStep cfg s (.shutdown rest)).1.tickerStopped = true ∧
      (processQueueStep cfg s (.shutdown rest)).1.flushed.join
        = s.flushed.join ++ s.batch ++ rest := by
  unfold processQueueStep
  dsimp only
  split_ifs with hne
  · simp [List.join_append]
  · have hempty : s.batch ++ rest = [] := not_not.mp hne
    simp [hempty]

/-- Claim C3: when shutdown is signalled after any shutdown-free run of
the egress worker, the final state has the queue closed and the timer
stopped, and the concatenation of all batch POSTs equals the full ordered
list of messages delivered before shutdown plus the messages drained
from the queue at shutdown — every enqueued message is delivered in
exactly one batch POST (possibly the final drain flush) and none is
dropped. -/
theorem c3_shutdown_drain (cfg : Config) (es : List WorkerEvent) (rest : List Message)
    (h : ∀ e ∈ es, e.isShutdown = false) :
    (ProcessQueue cfg (initWorkerState cfg) (es ++ [.shutdown rest])).queueClosed = true ∧
      (ProcessQueue cfg (initWorkerState cfg) (es ++ [.shutdown rest])).tickerStopped = true ∧
      (ProcessQueue cfg (initWorkerState cfg) (es ++ [.shutdown rest])).flushed.join
        = deliveredMessages es ++ rest := by
  rw [processQueue_append cfg es [.shutdown rest] h]
  have hinv := processQueue_conserves cfg es h (initWorkerState cfg)
  have hfl : (initWorkerState cfg).flushed = [] := rfl
  have hba : (initWorkerState cfg).batch = [] := rfl
  rw [hfl, hba] at hinv
  simp only [List.join_nil, List.nil_append] at hinv
  obtain ⟨hstop, hclosed, hticker, hjoin⟩ :=
    processQueueStep_shutdown cfg (ProcessQueue cfg (initWorkerState cfg) es) rest
  have hsingle : ProcessQueue cfg (ProcessQueue cfg (initWorkerState cfg) es) [.shutdown rest]
      = (processQueueStep cfg (ProcessQueue cfg (initWorkerState cfg) es) (.shutdown rest)).1 := by
    rw [processQueue_cons, hstop]
    simp
  rw [hsingle]
  refine ⟨hclosed, hticker, ?_⟩
  rw [hjoin, ← hinv]

/-- Witness for C3: two deliveries, an intermediate tick, then shutdown
with one message still queued; the flushes together carry all three
delivered messages plus the drained one, in order. -/
theorem c3_shutdown_drain_witness :
    (ProcessQueue defaultConfig (initWorkerState defaultConfig)
        ([.tick, .deliver pollMsg ⟨0, 0, 0⟩, .tick] ++ [.shutdown [limitMsg]])).queueClosed = true ∧
      (ProcessQueue defaultConfig (initWorkerState defaultConfig)
        ([.tick, .deliver pollMsg ⟨0, 0, 0⟩, .tick] ++ [.shutdown [limitMsg]])).tickerStopped = true ∧
      (ProcessQueue defaultConfig (initWorkerState defaultConfig)
        ([.tick, .deliver pollMsg ⟨0, 0, 0⟩, .tick] ++ [.shutdown [limitMsg]])).flushed.join
        = deliveredMessages [.tick, .deliver pollMsg ⟨0, 0, 0⟩, .tick] ++ [limitMsg] :=
  c3_shutdown_drain defaultConfig [.tick, .deliver pollMsg ⟨0, 0, 0⟩, .tick] [limitMsg]
    (by decide)

/-- Two configurations agreeing on every field except `FlushInterval`,
`BatchSize` and `ScaleFactor` (the `-flushInterval`, `-batchSize` and
`-scaleFactor` flags, which `InitializeConfig` parses but nothing
reads). -/
def agreesOnUsedFields (c1 c2 : Config) : Prop :=
  c1.appURL = c2.appURL ∧ c1.linuxPath = c2.linuxPath ∧ c1.socketPath = c2.socketPath ∧
    c1.apiKey = c2.apiKey ∧ c1.minBatchSize = c2.minBatchSize ∧
    c1.maxBatchSize = c2.maxBatchSize ∧ c1.maxQueueSize = c2.maxQueueSize ∧
    c1.targetCPUPercent = c2.targetCPUPercent ∧ c1.targetMemPercent = c2.targetMemPercent ∧
    c1.minBatchInterval = c2.minBatchInterval ∧ c1.maxBatchInterval = c2.maxBatchInterval

instance (c1 c2 : Config) : Decidable (agreesOnUsedFields c1 c2) := by
  unfold agreesOnUsedFields
  infer_instance

/-- The batch controller reads none of the three unused options. -/
theorem calculateDynamicBatchSize_congr (c1 c2 : Config) (h : agreesOnUsedFields c1 c2)
    (metrics : SystemMetrics) :
    calculateDynamicBatchSize c1 metrics = calculateDynamicBatchSize c2 metrics := by
  obtain ⟨-, -, -, -, h5, h6, -, h8, h9, -, -⟩ := h
  unfold calculateDynamicBatchSize
  rw [h5, h6, h8, h9]

/-- The flush-interval computation reads none of the three unused
options. -/
theorem adjustedInterval_congr (c1 c2 : Config) (h : agreesOnUsedFields c1 c2)
    (queueLoad : ℚ) :
    adjustedInterval c1 queueLoad = adjustedInterval c2 queueLoad := by
  obtain ⟨-, -, -, -, -, -, -, -, -, h10, h11⟩ := h
  unfold adjustedInterval
  rw [h10, h11]

/-- One worker iteration reads none of the three unused options. -/
theorem processQueueStep_congr (c1 c2 : Config) (h : agreesOnUsedFields c1 c2)
    (s : WorkerState) (e : WorkerEvent) :
    processQueueStep c1 s e = processQueueStep c2 s e := by
  cases e with
  | deliver m metrics =>
    unfold processQueueStep
    dsimp only
    rw [calculateDynamicBatchSize_congr c1 c2 h metrics,
      adjustedInterval_congr c1 c2 h metrics.queueLoad]
  | tick => rfl
  | shutdown r => rfl

/-- Claim C10: configurations differing only in `FlushInterval`,
`BatchSize` and `ScaleFactor` are indistinguishable to the whole
pipeline: batch-size computation, flush-interval computation, the
worker's initial state (its timer starts from `MinBatchInterval`, not
`FlushInterval`) and every egress run coincide.  (Message dispatch —
`ProcessMessage` and `HandleConnection` — takes no configuration input
at all in this embedding, so it cannot depend on them.) -/
theorem c10_unused_options_noninterference (c1 c2 : Config) (metrics : SystemMetrics)
    (queueLoad : ℚ) (es : List WorkerEvent) (h : agreesOnUsedFields c1 c2) :
    calculateDynamicBatchSize c1 metrics = calculateDynamicBatchSize c2 metrics ∧
      adjustedInterval c1 queueLoad = adjustedInterval c2 queueLoad ∧
      initWorkerState c1 = initWorkerState c2 ∧
      (initWorkerState c1).tickerInterval = c1.minBatchInterval ∧
      ProcessQueue c1 (initWorkerState c1) es = ProcessQueue c2 (initWorkerState c2) es := by
  have hinit : initWorkerState c1 = initWorkerState c2 := by
    obtain ⟨-, -, -, -, -, -, -, -, -, h10, -⟩ := h
    unfold initWorkerState
    rw [h10]
  have hrun : ∀ (fs : List WorkerEvent) (s : WorkerState),
      ProcessQueue c1 s fs = ProcessQueue c2 s fs := by
    intro fs
    induction fs with
    | nil => intro s; rfl
    | cons e es ih =>
      intro s
      rw [processQueue_cons, processQueue_cons, processQueueStep_congr c1 c2 h s e]
      split_ifs
      · rfl
      · exact ih _
  exact ⟨calculateDynamicBatchSize_congr c1 c2 h metrics,
    adjustedInterval_congr c1 c2 h queueLoad, hinit, rfl, by rw [hinit]; exact hrun es _⟩

/-- A configuration differing from the default only in the three unused
options. -/
def alteredUnusedConfig : Config :=
  { defaultConfig with flushInterval := 999999, batchSize := 77, scaleFactor := 9 }

/-- Witness for C10: the default configuration against one with all
three unused options changed, on a short event run. -/
theorem c10_unused_options_noninterference_witness :
    calculateDynamicBatchSize defaultConfig ⟨10, 20, 30⟩
        = calculateDynamicBatchSize alteredUnusedConfig ⟨10, 20, 30⟩ ∧
      adjustedInterval defaultConfig 30 = adjustedInterval alteredUnusedConfig 30 ∧
      initWorkerState defaultConfig = initWorkerState alteredUnusedConfig ∧
      (initWorkerState defaultConfig).tickerInterval = defaultConfig.minBatchInterval ∧
      ProcessQueue defaultConfig (initWorkerState defaultConfig)
          [.tick, .shutdown [pollMsg]]
        = ProcessQueue alteredUnusedConfig (initWorkerState alteredUnusedConfig)
          [.tick, .shutdown [pollMsg]] :=
  c10_unused_options_noninterference defaultConfig alteredUnusedConfig ⟨10, 20, 30⟩ 30
    [.tick, .shutdown [pollMsg]] (by decide)
